import Mathlib

/-!
Verification of the authorization and task-management behavior of the
project-management backend (Express controllers over Mongoose models).

The definitions below are a shallow embedding of the request handlers in
src/backend/src/controllers (projectController, taskController,
userController) together with the Mongoose models (Project, Task, User).
Object ids are modelled as Nat, dates as Int timestamps, and the document
store as explicit lists. Each handler is a pure function from a database
state and request data to an HTTP status code paired with the new database
state. Fields of the models that no handler in scope reads or writes
(avatars, attachments, hour estimates, archive flags, timestamps) are
omitted from the record types.

The task routes (taskRoutes) attach only the authentication middleware
to every task endpoint; the role middleware module (canManageTasks,
canUpdateTaskStatus, canDeleteTask) is defined in the repository but is
not wired into any route, so the effective behavior is exactly that of
the controller bodies embedded here.
-/

namespace PMT

inductive GlobalRole
  | admin
  | manager
  | member
  deriving DecidableEq

inductive ProjectRole
  | manager
  | member
  deriving DecidableEq

inductive TaskStatus
  | todo
  | inprogress
  | review
  | done
  deriving DecidableEq

inductive Priority
  | low
  | medium
  | high
  deriving DecidableEq

/-- User document: id, global role, active flag (name/email/password omitted). -/
structure User where
  id : Nat
  role : GlobalRole
  isActive : Bool
  deriving DecidableEq

/-- Entry of the members array of a Project (joinedAt timestamp omitted). -/
structure Member where
  user : Nat
  role : ProjectRole
  deriving DecidableEq

/-- Per-project settings subdocument. -/
structure Settings where
  allowMemberTaskCreation : Bool
  allowMemberTaskAssignment : Bool
  defaultTaskPriority : Priority
  deriving DecidableEq

/-- Project document. -/
structure Project where
  id : Nat
  name : String
  description : String
  owner : Nat
  members : List Member
  status : String
  settings : Settings
  deriving DecidableEq

/-- Task document. -/
structure Task where
  id : Nat
  title : String
  description : String
  status : TaskStatus
  priority : Priority
  dueDate : Option Int
  assignee : Option Nat
  createdBy : Nat
  project : Nat
  tags : List String
  deriving DecidableEq

/-- The document store: the three collections the controllers touch. -/
structure DB where
  users : List User
  projects : List Project
  tasks : List Task
  deriving DecidableEq

def DB.findProject (db : DB) (pid : Nat) : Option Project :=
  db.projects.find? (fun p => p.id == pid)

def DB.findTask (db : DB) (tid : Nat) : Option Task :=
  db.tasks.find? (fun t => t.id == tid)

def DB.findUser (db : DB) (uid : Nat) : Option User :=
  db.users.find? (fun u => u.id == uid)

/-- Persisting a modified project document (replacement by id, as save does). -/
def DB.saveProject (db : DB) (p : Project) : DB :=
  { db with projects := db.projects.map (fun q => if q.id == p.id then p else q) }

def DB.saveTask (db : DB) (t : Task) : DB :=
  { db with tasks := db.tasks.map (fun q => if q.id == t.id then t else q) }

def DB.saveUser (db : DB) (u : User) : DB :=
  { db with users := db.users.map (fun q => if q.id == u.id then u else q) }

/-- Virtual isOverdue of the task schema: false without a dueDate, otherwise
true when the current time is strictly past the dueDate and the status is
not done. -/
def isOverdue (now : Int) (t : Task) : Bool :=
  match t.dueDate with
  | none => false
  | some d => decide (d < now) && t.status != TaskStatus.done

/-- The status strings accepted by the updateTaskStatus handler. -/
def validStatuses : List String := ["todo", "inprogress", "review", "done"]

def parseStatus (s : String) : Option TaskStatus :=
  if s = "todo" then some TaskStatus.todo
  else if s = "inprogress" then some TaskStatus.inprogress
  else if s = "review" then some TaskStatus.review
  else if s = "done" then some TaskStatus.done
  else none

/-- Handler PATCH /api/tasks/:id/status (updateTaskStatus in taskController).
The status string is validated against the enum before the task lookup; a
missing parent project would make the owner dereference throw, which the
catch block turns into a 500. -/
def updateTaskStatus (db : DB) (actor : User) (taskId : Nat) (statusStr : String) :
    Nat × DB :=
  if !(validStatuses.contains statusStr) then (400, db)
  else
    match db.findTask taskId with
    | none => (404, db)
    | some task =>
      match db.findProject task.project with
      | none => (500, db)
      | some project =>
        let isTaskAssignee := task.assignee == some actor.id
        let isProjectOwner := project.owner == actor.id
        let isAdmin := actor.role == GlobalRole.admin
        if !isTaskAssignee && !isProjectOwner && !isAdmin then (403, db)
        else
          let st := (parseStatus statusStr).getD task.status
          (200, db.saveTask { task with status := st })

/-- Whitespace trimming applied by the Mongoose string setters (the schema
sets trim true on title, description and tags). Implemented over the
character list so concrete inputs evaluate by reduction. -/
def strTrim (s : String) : String :=
  ⟨((s.data.dropWhile Char.isWhitespace).reverse.dropWhile
      Char.isWhitespace).reverse⟩

/-- Request body of POST /api/tasks. -/
structure CreateTaskBody where
  title : String
  description : String
  project : Nat
  priority : Option Priority
  dueDate : Option Int
  assignee : Option Nat
  tags : List String
  deriving DecidableEq

/-- Handler POST /api/tasks (createTask in taskController). The route
attaches no express-validator checks, so the validationResult guard at the
top of the handler never fires. Task.create, however, runs the Mongoose
schema validators: title and description are trimmed, title must be 3 to
100 characters (required subsumed: a trimmed-empty title is shorter than
3), description at most 500, and tags entries are trimmed; a validation
error is caught by the catch block and surfaced as 500 with no task
created. newId stands for the id the store assigns to the created
document. -/
def createTask (db : DB) (actor : User) (body : CreateTaskBody) (newId : Nat) :
    Nat × DB :=
  match db.findProject body.project with
  | none => (404, db)
  | some projectDoc =>
    let isProjectMember :=
      projectDoc.owner == actor.id
      || projectDoc.members.any (fun m => m.user == actor.id)
      || actor.role == GlobalRole.admin
    if !isProjectMember then (403, db)
    else
      let assigneeRejected :=
        match body.assignee with
        | none => false
        | some a =>
          let isAssigneeMember :=
            a == projectDoc.owner
            || projectDoc.members.any (fun m => m.user == a)
          !isAssigneeMember && actor.role != GlobalRole.admin
      if assigneeRejected then (400, db)
      else
        let title := (strTrim body.title)
        let description := (strTrim body.description)
        if title.length < 3 ∨ title.length > 100 ∨ description.length > 500 then
          (500, db)
        else
          let task : Task :=
            { id := newId
              title := title
              description := description
              status := TaskStatus.todo
              priority := body.priority.getD Priority.medium
              dueDate := body.dueDate
              assignee := body.assignee
              createdBy := actor.id
              project := body.project
              tags := body.tags.map strTrim }
          (201, { db with tasks := db.tasks ++ [task] })

/-- Typed value of one field of an updateTask request body. A body is an
association list of field names to values, mirroring the arbitrary JSON
object the handler receives. -/
inductive FieldVal
  | str (s : String)
  | prio (p : Priority)
  | date (d : Option Int)
  | tagList (ts : List String)
  | stat (s : TaskStatus)
  | ref (u : Nat)
  deriving DecidableEq

abbrev TaskBody := List (String × FieldVal)

def getField (body : TaskBody) (k : String) : Option FieldVal :=
  (body.find? (fun kv => kv.1 == k)).map (fun kv => kv.2)

/-- Effect of findByIdAndUpdate writing one key of the update object onto a
task document. Keys that name no task field, or carry a value of the wrong
shape for the field, change nothing. -/
def setTaskField (t : Task) (kv : String × FieldVal) : Task :=
  match kv with
  | ("title", FieldVal.str s) => { t with title := s }
  | ("description", FieldVal.str s) => { t with description := s }
  | ("priority", FieldVal.prio p) => { t with priority := p }
  | ("dueDate", FieldVal.date d) => { t with dueDate := d }
  | ("tags", FieldVal.tagList ts) => { t with tags := ts }
  | ("status", FieldVal.stat s) => { t with status := s }
  | ("assignee", FieldVal.ref u) => { t with assignee := some u }
  | ("project", FieldVal.ref u) => { t with project := u }
  | ("createdBy", FieldVal.ref u) => { t with createdBy := u }
  | _ => t

/-- Handler PUT /api/tasks/:id (updateTask in taskController). The body is
filtered to the allowedUpdates key list; status and assignee join that list
only after their dedicated permission checks pass. -/
def updateTask (db : DB) (actor : User) (taskId : Nat) (body : TaskBody) :
    Nat × DB :=
  match db.findTask taskId with
  | none => (404, db)
  | some task =>
    match db.findProject task.project with
    | none => (500, db)
    | some project =>
      let isProjectOwner := project.owner == actor.id
      let isTaskAssignee := task.assignee == some actor.id
      let isAdmin := actor.role == GlobalRole.admin
      let hasStatus := (getField body "status").isSome
      let hasAssignee := (getField body "assignee").isSome
      if hasStatus && (!isProjectOwner && !isTaskAssignee && !isAdmin) then (403, db)
      else if hasAssignee && (!isProjectOwner && !isAdmin) then (403, db)
      else
        let allowedUpdates :=
          ["title", "description", "priority", "dueDate", "tags"]
          ++ (if hasStatus then ["status"] else [])
          ++ (if hasAssignee then ["assignee"] else [])
        let updates := body.filter (fun kv => allowedUpdates.contains kv.1)
        (200, db.saveTask (updates.foldl setTaskField task))

/-- Handler DELETE /api/tasks/:id (deleteTask in taskController). Only the
project owner or a global admin passes the permission check; a missing
parent project makes the owner dereference throw (500). -/
def deleteTask (db : DB) (actor : User) (taskId : Nat) : Nat × DB :=
  match db.findTask taskId with
  | none => (404, db)
  | some task =>
    match db.findProject task.project with
    | none => (500, db)
    | some project =>
      if project.owner != actor.id && actor.role != GlobalRole.admin then (403, db)
      else (200, { db with tasks := db.tasks.filter (fun t => t.id != task.id) })

/-- Typed value of one field of an updateProject request body. -/
inductive ProjVal
  | str (s : String)
  | mems (ms : List Member)
  | conf (s : Settings)
  | ref (u : Nat)
  deriving DecidableEq

abbrev ProjBody := List (String × ProjVal)

def getProjField (body : ProjBody) (k : String) : Option ProjVal :=
  (body.find? (fun kv => kv.1 == k)).map (fun kv => kv.2)

/-- Effect of findByIdAndUpdate writing one key of the update object onto a
project document. -/
def setProjectField (p : Project) (kv : String × ProjVal) : Project :=
  match kv with
  | ("name", ProjVal.str s) => { p with name := s }
  | ("description", ProjVal.str s) => { p with description := s }
  | ("status", ProjVal.str s) => { p with status := s }
  | ("members", ProjVal.mems ms) => { p with members := ms }
  | ("settings", ProjVal.conf s) => { p with settings := s }
  | ("owner", ProjVal.ref u) => { p with owner := u }
  | _ => p

/-- Handler PUT /api/projects/:id (updateProject in projectController).
Only the owner key is deleted from the update object before it is applied;
every other body field, the members array included, is written through. -/
def updateProject (db : DB) (actor : User) (projectId : Nat) (body : ProjBody) :
    Nat × DB :=
  match db.findProject projectId with
  | none => (404, db)
  | some project =>
    if project.owner != actor.id && actor.role != GlobalRole.admin then (403, db)
    else
      let updates := body.filter (fun kv => kv.1 != "owner")
      (200, db.saveProject (updates.foldl setProjectField project))

/-- Request body of POST /api/projects (fields the embedding tracks). -/
structure CreateProjectBody where
  name : String
  description : String
  deriving DecidableEq

/-- Schema defaults of the settings subdocument. -/
def defaultSettings : Settings :=
  { allowMemberTaskCreation := true
    allowMemberTaskAssignment := false
    defaultTaskPriority := Priority.medium }

/-- Handler POST /api/projects (createProject in projectController). The
creator becomes the owner; the members array starts at its schema default,
empty. -/
def createProject (db : DB) (actor : User) (body : CreateProjectBody) (newId : Nat) :
    Nat × DB :=
  let project : Project :=
    { id := newId
      name := body.name
      description := body.description
      owner := actor.id
      members := []
      status := "active"
      settings := defaultSettings }
  (201, { db with projects := db.projects ++ [project] })

/-- Handler POST /api/projects/:id/members (addMember in projectController). -/
def addMember (db : DB) (actor : User) (projectId : Nat) (userId : Nat)
    (role : ProjectRole) : Nat × DB :=
  match db.findProject projectId with
  | none => (404, db)
  | some project =>
    if project.owner != actor.id && actor.role != GlobalRole.admin then (403, db)
    else
      match db.findUser userId with
      | none => (404, db)
      | some _ =>
        let isAlreadyMember :=
          project.members.any (fun m => m.user == userId)
          || project.owner == userId
        if isAlreadyMember then (400, db)
        else
          (200, db.saveProject
            { project with members := project.members ++ [{ user := userId, role := role }] })

/-- Handler DELETE /api/projects/:id/members/:memberId (removeMember in
projectController). -/
def removeMember (db : DB) (actor : User) (projectId : Nat) (memberId : Nat) :
    Nat × DB :=
  match db.findProject projectId with
  | none => (404, db)
  | some project =>
    if project.owner != actor.id && actor.role != GlobalRole.admin then (403, db)
    else if project.owner == memberId then (400, db)
    else
      (200, db.saveProject
        { project with members := project.members.filter (fun m => m.user != memberId) })

def parseGlobalRole (s : String) : Option GlobalRole :=
  if s = "admin" then some GlobalRole.admin
  else if s = "manager" then some GlobalRole.manager
  else if s = "member" then some GlobalRole.member
  else none

/-- Handler PUT /api/users/:id/role (updateUserRole in userController). -/
def updateUserRole (db : DB) (actor : User) (targetId : Nat) (roleStr : String) :
    Nat × DB :=
  if actor.role != GlobalRole.admin then (403, db)
  else
    match parseGlobalRole roleStr with
    | none => (400, db)
    | some role =>
      match db.findUser targetId with
      | none => (404, db)
      | some user =>
        if actor.id == targetId then (400, db)
        else (200, db.saveUser { user with role := role })

/-- Handler PUT /api/users/:id/status (updateUserStatus in userController).
The isActive body field is typed Bool here, so the typeof guard of the
source never fires. -/
def updateUserStatus (db : DB) (actor : User) (targetId : Nat) (isActive : Bool) :
    Nat × DB :=
  if actor.role != GlobalRole.admin then (403, db)
  else
    match db.findUser targetId with
    | none => (404, db)
    | some user =>
      if actor.id == targetId && !isActive then (400, db)
      else (200, db.saveUser { user with isActive := isActive })

/-- Handler DELETE /api/users/:id (deleteUser in userController): cascading
delete of owned projects and their tasks, removal from member rosters,
clearing of assignee references, then deletion of the user record. -/
def deleteUser (db : DB) (actor : User) (targetId : Nat) : Nat × DB :=
  if actor.role != GlobalRole.admin then (403, db)
  else
    match db.findUser targetId with
    | none => (404, db)
    | some user =>
      if actor.id == targetId then (400, db)
      else
        let ownedIds := (db.projects.filter (fun p => p.owner == user.id)).map (fun p => p.id)
        let tasks1 := db.tasks.filter (fun t => !(ownedIds.contains t.project))
        let projects1 := db.projects.filter (fun p => p.owner != user.id)
        let projects2 := projects1.map
          (fun p => { p with members := p.members.filter (fun m => m.user != user.id) })
        let tasks2 := tasks1.map
          (fun t => if t.assignee == some user.id then { t with assignee := none } else t)
        (200,
          { users := db.users.filter (fun u => u.id != user.id)
            projects := projects2
            tasks := tasks2 })

/-! Concrete fixtures used by witnesses and counterexamples: one project
with an owner, a plain member, a manager-role member, a global admin and an
unrelated user, plus one task assigned to the plain member. -/

def exOwner : User := { id := 1, role := GlobalRole.member, isActive := true }

def exMember : User := { id := 2, role := GlobalRole.member, isActive := true }

def exManager : User := { id := 3, role := GlobalRole.member, isActive := true }

def exAdmin : User := { id := 9, role := GlobalRole.admin, isActive := true }

def exOutsider : User := { id := 7, role := GlobalRole.member, isActive := true }

def exProject : Project :=
  { id := 1
    name := "P1"
    description := ""
    owner := 1
    members :=
      [ { user := 2, role := ProjectRole.member }
      , { user := 3, role := ProjectRole.manager } ]
    status := "active"
    settings :=
      { allowMemberTaskCreation := false
        allowMemberTaskAssignment := false
        defaultTaskPriority := Priority.medium } }

def exTask : Task :=
  { id := 5
    title := "T1"
    description := ""
    status := TaskStatus.review
    priority := Priority.medium
    dueDate := some 100
    assignee := some 2
    createdBy := 2
    project := 1
    tags := [] }

def exDB : DB :=
  { users := [exOwner, exMember, exManager, exAdmin, exOutsider]
    projects := [exProject]
    tasks := [exTask] }

def exCreateBody : CreateTaskBody :=
  { title := "task"
    description := ""
    project := 1
    priority := none
    dueDate := none
    assignee := none
    tags := [] }

/-- Claim C9: the virtual isOverdue is true exactly when the task has a
dueDate, the current time is strictly after it, and the status is not done;
it is false whenever the status is done, and false whenever there is no
dueDate. -/
theorem c9_isOverdue_spec (now : Int) (t : Task) :
    (isOverdue now t = true ↔
      ∃ d, t.dueDate = some d ∧ d < now ∧ t.status ≠ TaskStatus.done) ∧
    (t.status = TaskStatus.done → isOverdue now t = false) ∧
    (t.dueDate = none → isOverdue now t = false) := by
  cases h : t.dueDate with
  | none => simp [isOverdue, h]
  | some d =>
    refine ⟨?_, ?_, ?_⟩
    · simp [isOverdue, h, and_assoc]
    · intro hs
      simp [isOverdue, h, hs]
    · intro hn
      exact Option.noConfusion hn

/-- Witness for c9_isOverdue_spec: a task whose status is done is not
overdue even with a dueDate in the past. -/
theorem c9_isOverdue_spec_witness :
    isOverdue 200 { exTask with status := TaskStatus.done } = false :=
  (c9_isOverdue_spec 200 { exTask with status := TaskStatus.done }).2.1 rfl

/-- Claim C10: a status string outside the enum makes updateTaskStatus
return 400 with the store untouched, before any task lookup, so the same
outcome results for every task id, existing or not. -/
theorem c10_updateTaskStatus_invalid (db : DB) (actor : User) (tid : Nat) (s : String)
    (h : validStatuses.contains s = false) :
    updateTaskStatus db actor tid s = (400, db) := by
  unfold updateTaskStatus
  have h2 : (!validStatuses.contains s) = true := by rw [h]; rfl
  exact if_pos h2

/-- Witness for c10_updateTaskStatus_invalid: an unknown status string with
a task id that refers to no stored task still yields 400 and no change. -/
theorem c10_updateTaskStatus_invalid_witness :
    validStatuses.contains "archived" = false ∧
    exDB.findTask 99 = none ∧
    updateTaskStatus exDB exAdmin 99 "archived" = (400, exDB) :=
  ⟨by decide, by decide,
    c10_updateTaskStatus_invalid exDB exAdmin 99 "archived" (by decide)⟩

/-- Claim C6: a removeMember request naming the owner of the target project
never succeeds, whoever the actor is, and leaves the store unchanged. -/
theorem c6_removeMember_owner (db : DB) (actor : User) (pid mid : Nat) (p : Project)
    (hp : db.findProject pid = some p) (how : p.owner = mid) :
    (removeMember db actor pid mid).1 ≠ 200 ∧ (removeMember db actor pid mid).2 = db := by
  unfold removeMember
  simp only [hp]
  rw [how]
  split
  · simp
  · simp

/-- Witness for c6_removeMember_owner: the admin trying to remove the owner
of the example project fails and changes nothing. -/
theorem c6_removeMember_owner_witness :
    (removeMember exDB exAdmin 1 1).1 ≠ 200 ∧ (removeMember exDB exAdmin 1 1).2 = exDB :=
  c6_removeMember_owner exDB exAdmin 1 1 exProject (by decide) (by decide)

/-- Claim C7: a user acting on their own account can never change their own
global role, deactivate themselves, or delete themselves, admin or not; the
request fails and the store is unchanged. -/
theorem c7_self_protection (db : DB) (u : User) (roleStr : String) :
    ((updateUserRole db u u.id roleStr).1 ≠ 200 ∧ (updateUserRole db u u.id roleStr).2 = db) ∧
    ((updateUserStatus db u u.id false).1 ≠ 200 ∧ (updateUserStatus db u u.id false).2 = db) ∧
    ((deleteUser db u u.id).1 ≠ 200 ∧ (deleteUser db u u.id).2 = db) := by
  refine ⟨?_, ?_, ?_⟩
  · unfold updateUserRole
    by_cases ha : (u.role != GlobalRole.admin) = true
    · simp [ha]
    · cases hr : parseGlobalRole roleStr <;> cases hu : db.findUser u.id <;>
        simp [ha, hr, hu]
  · unfold updateUserStatus
    by_cases ha : (u.role != GlobalRole.admin) = true
    · simp [ha]
    · cases hu : db.findUser u.id <;> simp [ha, hu]
  · unfold deleteUser
    by_cases ha : (u.role != GlobalRole.admin) = true
    · simp [ha]
    · cases hu : db.findUser u.id <;> simp [ha, hu]

/-- Counterexample to claim C1: the example project has
allowMemberTaskCreation set to false, yet the plain member (per-project
role member, not the owner, not a global admin) gets 201 from createTask
and a task is appended, where the claim requires a 403 denial with no task
created. -/
theorem c1_counterexample :
    exProject.settings.allowMemberTaskCreation = false ∧
    exProject.members.any (fun m => m.user == exMember.id && m.role == ProjectRole.member) = true ∧
    exProject.owner ≠ exMember.id ∧
    exMember.role ≠ GlobalRole.admin ∧
    (createTask exDB exMember exCreateBody 10).1 = 201 ∧
    (createTask exDB exMember exCreateBody 10).2.tasks.length = exDB.tasks.length + 1 := by
  decide

/-- Claim C1 (amended): the wired task route runs the createTask controller
directly, which never consults allowMemberTaskCreation; a schema-valid
request (trimmed title 3 to 100 characters, trimmed description at most
500) by any member of the target project (here with no assignee field)
always succeeds with 201 and appends the new task, whatever the setting. -/
theorem c1_member_create_succeeds (db : DB) (actor : User) (body : CreateTaskBody)
    (newId : Nat) (p : Project)
    (hp : db.findProject body.project = some p)
    (hm : p.members.any (fun m => m.user == actor.id) = true)
    (ha : body.assignee = none)
    (ht1 : 3 ≤ (strTrim body.title).length)
    (ht2 : (strTrim body.title).length ≤ 100)
    (hd : (strTrim body.description).length ≤ 500) :
    createTask db actor body newId =
      (201, { db with tasks := db.tasks ++
        [{ id := newId
           title := (strTrim body.title)
           description := (strTrim body.description)
           status := TaskStatus.todo
           priority := body.priority.getD Priority.medium
           dueDate := body.dueDate
           assignee := none
           createdBy := actor.id
           project := body.project
           tags := body.tags.map strTrim }] }) := by
  unfold createTask
  have hv1 : ¬ (strTrim body.title).length < 3 := by omega
  have hv2 : ¬ (strTrim body.title).length > 100 := by omega
  have hv3 : ¬ (strTrim body.description).length > 500 := by omega
  simp [hp, ha, hm, hv1, hv2, hv3]

/-- Witness for c1_member_create_succeeds at the example store: the plain
member creates a task in the project whose allowMemberTaskCreation is
false. -/
theorem c1_member_create_succeeds_witness :
    createTask exDB exMember exCreateBody 10 =
      (201, { exDB with tasks := exDB.tasks ++
        [{ id := 10
           title := "task"
           description := ""
           status := TaskStatus.todo
           priority := Priority.medium
           dueDate := none
           assignee := none
           createdBy := 2
           project := 1
           tags := [] }] }) :=
  (c1_member_create_succeeds exDB exMember exCreateBody 10 exProject
      (by decide) (by decide) rfl (by decide) (by decide) (by decide)).trans
    (by decide)

/-- Counterexample to claim C3: the creator of the example task (a plain
member who is neither project owner nor admin) is denied by deleteTask with
403, where the claim requires the creator to always succeed. -/
theorem c3_counterexample :
    exTask.createdBy = exMember.id ∧
    exProject.owner ≠ exMember.id ∧
    exMember.role ≠ GlobalRole.admin ∧
    deleteTask exDB exMember 5 = (403, exDB) := by
  decide

/-- Claim C3 (amended): the wired deleteTask controller checks only project
ownership and global admin; it succeeds exactly for the project owner or an
admin, and every other actor, the task creator included, gets 403 with the
store unchanged. -/
theorem c3_deleteTask_owner_or_admin (db : DB) (actor : User) (tid : Nat)
    (task : Task) (p : Project)
    (ht : db.findTask tid = some task)
    (hp : db.findProject task.project = some p) :
    ((deleteTask db actor tid).1 = 200 ↔
      (p.owner = actor.id ∨ actor.role = GlobalRole.admin)) ∧
    (¬(p.owner = actor.id ∨ actor.role = GlobalRole.admin) →
      deleteTask db actor tid = (403, db)) := by
  unfold deleteTask
  by_cases h1 : p.owner = actor.id
  · simp [ht, hp, h1]
  · by_cases h2 : actor.role = GlobalRole.admin
    · simp [ht, hp, h1, h2]
    · simp [ht, hp, h1, h2]

/-- Witness for c3_deleteTask_owner_or_admin: the unrelated user can not
delete the example task and the store is unchanged. -/
theorem c3_deleteTask_owner_or_admin_witness :
    ((deleteTask exDB exOutsider 5).1 = 200 ↔
      (exProject.owner = exOutsider.id ∨ exOutsider.role = GlobalRole.admin)) ∧
    (¬(exProject.owner = exOutsider.id ∨ exOutsider.role = GlobalRole.admin) →
      deleteTask exDB exOutsider 5 = (403, exDB)) :=
  c3_deleteTask_owner_or_admin exDB exOutsider 5 exTask exProject (by decide) (by decide)

/-- Counterexample to claim C2: the manager-role member of the example
project, who is not the assignee, not the owner and not a global admin, is
denied the status change with 403, where the claim requires a
project-manager-role member to be allowed. -/
theorem c2_counterexample :
    exProject.members.any
      (fun m => m.user == exManager.id && m.role == ProjectRole.manager) = true ∧
    exTask.assignee ≠ some exManager.id ∧
    exProject.owner ≠ exManager.id ∧
    exManager.role ≠ GlobalRole.admin ∧
    updateTaskStatus exDB exManager 5 "done" = (403, exDB) := by
  decide

/-- Claim C2 (amended): a status change, through updateTaskStatus or
through updateTask with a status field, is allowed exactly when the actor
is the current assignee, the project owner, or a global admin; a
manager-role member has no extra right, and every denied actor gets 403
with the store unchanged. -/
theorem c2_status_change (db : DB) (actor : User) (tid : Nat) (s : String)
    (body : TaskBody) (task : Task) (p : Project)
    (hs : validStatuses.contains s = true)
    (ht : db.findTask tid = some task)
    (hp : db.findProject task.project = some p)
    (hbs : (getField body "status").isSome = true) :
    ((updateTaskStatus db actor tid s).1 = 200 ↔
      (task.assignee = some actor.id ∨ p.owner = actor.id ∨
        actor.role = GlobalRole.admin)) ∧
    (¬(task.assignee = some actor.id ∨ p.owner = actor.id ∨
        actor.role = GlobalRole.admin) →
      updateTaskStatus db actor tid s = (403, db) ∧
      updateTask db actor tid body = (403, db)) := by
  have hs2 : s ∈ validStatuses := by simpa using hs
  by_cases h1 : task.assignee = some actor.id
  · simp [updateTaskStatus, hs2, ht, hp, h1]
  · by_cases h2 : p.owner = actor.id
    · simp [updateTaskStatus, hs2, ht, hp, h1, h2]
    · by_cases h3 : actor.role = GlobalRole.admin
      · simp [updateTaskStatus, hs2, ht, hp, h1, h2, h3]
      · simp [updateTaskStatus, updateTask, hs2, ht, hp, hbs, h1, h2, h3]

/-- Witness for c2_status_change: the manager-role member is denied by both
status-change paths on the example store. -/
theorem c2_status_change_witness :
    ((updateTaskStatus exDB exManager 5 "done").1 = 200 ↔
      (exTask.assignee = some exManager.id ∨ exProject.owner = exManager.id ∨
        exManager.role = GlobalRole.admin)) ∧
    (¬(exTask.assignee = some exManager.id ∨ exProject.owner = exManager.id ∨
        exManager.role = GlobalRole.admin) →
      updateTaskStatus exDB exManager 5 "done" = (403, exDB) ∧
      updateTask exDB exManager 5 [("status", FieldVal.stat TaskStatus.done)] = (403, exDB)) :=
  c2_status_change exDB exManager 5 "done"
    [("status", FieldVal.stat TaskStatus.done)] exTask exProject
    (by decide) (by decide) (by decide) (by decide)

/-- Counterexample to claim C4: user 7 is neither owner nor member of the
example project, yet a global admin creating a task with assignee 7 gets
201 with the task appended, and the project owner moving the assignee of an
existing task to 7 through updateTask gets 200 with the task modified;
the claim requires a 400 validation failure in both cases. -/
theorem c4_counterexample :
    exProject.owner ≠ 7 ∧
    exProject.members.any (fun m => m.user == 7) = false ∧
    (createTask exDB exAdmin { exCreateBody with assignee := some 7 } 11).1 = 201 ∧
    (createTask exDB exAdmin { exCreateBody with assignee := some 7 } 11).2.tasks.length
      = exDB.tasks.length + 1 ∧
    (updateTask exDB exOwner 5 [("assignee", FieldVal.ref 7)]).1 = 200 ∧
    ((updateTask exDB exOwner 5 [("assignee", FieldVal.ref 7)]).2.findTask 5).map
      Task.assignee = some (some 7) := by
  decide

set_option maxHeartbeats 1000000 in
/-- Claim C4 (amended): createTask rejects a non-member assignee with 400
and creates nothing only when the actor is not a global admin; a
schema-valid admin request is exempt from the check and the task is
created with the non-member assignee; and updateTask applies an assignee
change with no membership validation at all, so the project owner can set
any user id. -/
theorem c4_assignee_validation (db : DB) (actor : User) (body : CreateTaskBody)
    (newId : Nat) (p : Project) (a : Nat)
    (hp : db.findProject body.project = some p)
    (ha : body.assignee = some a) :
    (actor.role ≠ GlobalRole.admin →
      (p.owner == actor.id || p.members.any (fun m => m.user == actor.id)) = true →
      a ≠ p.owner →
      p.members.any (fun m => m.user == a) = false →
      createTask db actor body newId = (400, db)) ∧
    (actor.role = GlobalRole.admin →
      3 ≤ (strTrim body.title).length →
      (strTrim body.title).length ≤ 100 →
      (strTrim body.description).length ≤ 500 →
      createTask db actor body newId =
        (201, { db with tasks := db.tasks ++
          [{ id := newId
             title := (strTrim body.title)
             description := (strTrim body.description)
             status := TaskStatus.todo
             priority := body.priority.getD Priority.medium
             dueDate := body.dueDate
             assignee := some a
             createdBy := actor.id
             project := body.project
             tags := body.tags.map strTrim }] })) ∧
    (∀ (tid : Nat) (task : Task) (q : Project),
      db.findTask tid = some task →
      db.findProject task.project = some q →
      q.owner = actor.id →
      updateTask db actor tid [("assignee", FieldVal.ref a)]
        = (200, db.saveTask { task with assignee := some a })) := by
  refine ⟨?_, ?_, ?_⟩
  · intro hadm hmem hao ham
    unfold createTask
    rcases Bool.or_eq_true _ _ |>.mp hmem with hm | hm
    · have hao2 : a ≠ actor.id := fun h => hao (h.trans (beq_iff_eq.mp hm).symm)
      simp [hp, ha, hadm, hao, ham, hao2, beq_iff_eq.mp hm]
    · simp [hp, ha, hadm, hao, ham, hm]
  · intro hadm ht1 ht2 hd
    unfold createTask
    have hv1 : ¬ (strTrim body.title).length < 3 := by omega
    have hv2 : ¬ (strTrim body.title).length > 100 := by omega
    have hv3 : ¬ (strTrim body.description).length > 500 := by omega
    simp [hp, ha, hadm, hv1, hv2, hv3]
  · intro tid task q ht hq howner
    unfold updateTask
    simp [ht, hq, howner, getField, setTaskField]

/-- Witness for c4_assignee_validation on the example store: the plain
member is blocked by the assignee check, the admin is not, and the owner
reassigns to the unrelated user through updateTask. -/
theorem c4_assignee_validation_witness :
    createTask exDB exMember { exCreateBody with assignee := some 7 } 12 = (400, exDB) ∧
    createTask exDB exAdmin { exCreateBody with assignee := some 7 } 11 =
      (201, { exDB with tasks := exDB.tasks ++
        [{ id := 11
           title := "task"
           description := ""
           status := TaskStatus.todo
           priority := Priority.medium
           dueDate := none
           assignee := some 7
           createdBy := 9
           project := 1
           tags := [] }] }) ∧
    updateTask exDB exOwner 5 [("assignee", FieldVal.ref 7)]
      = (200, exDB.saveTask { exTask with assignee := some 7 }) := by
  refine ⟨?_, ?_, ?_⟩
  · exact (c4_assignee_validation exDB exMember
      { exCreateBody with assignee := some 7 } 12 exProject 7 (by decide) rfl).1
      (by decide) (by decide) (by decide) (by decide)
  · exact ((c4_assignee_validation exDB exAdmin
      { exCreateBody with assignee := some 7 } 11 exProject 7 (by decide) rfl).2.1
      rfl (by decide) (by decide) (by decide)).trans (by decide)
  · exact (c4_assignee_validation exDB exOwner
      { exCreateBody with assignee := some 7 } 13 exProject 7 (by decide) rfl).2.2
      5 exTask exProject (by decide) (by decide) (by decide)

/-- Identity, project reference and creator reference of a task: the parts
of a task document that updateTask must never change. -/
def taskFrame (t : Task) : Nat × Nat × Nat := (t.id, t.project, t.createdBy)

theorem setTaskField_frame (t : Task) (kv : String × FieldVal)
    (h1 : kv.1 ≠ "project") (h2 : kv.1 ≠ "createdBy") :
    taskFrame (setTaskField t kv) = taskFrame t := by
  obtain ⟨k, v⟩ := kv
  unfold setTaskField
  split <;> simp_all [taskFrame]

theorem foldl_setTaskField_frame (updates : List (String × FieldVal)) (t : Task)
    (h : ∀ kv ∈ updates, kv.1 ≠ "project" ∧ kv.1 ≠ "createdBy") :
    taskFrame (updates.foldl setTaskField t) = taskFrame t := by
  induction updates generalizing t with
  | nil => rfl
  | cons kv rest ih =>
    have hkv := h kv (List.mem_cons_self _ _)
    have hrest : ∀ x ∈ rest, x.1 ≠ "project" ∧ x.1 ≠ "createdBy" :=
      fun x hx => h x (List.mem_cons_of_mem _ hx)
    calc taskFrame ((kv :: rest).foldl setTaskField t)
        = taskFrame (rest.foldl setTaskField (setTaskField t kv)) := rfl
      _ = taskFrame (setTaskField t kv) := ih _ hrest
      _ = taskFrame t := setTaskField_frame t kv hkv.1 hkv.2

theorem mem_allowedUpdates (hs ha : Bool) (k : String)
    (hk : k ∈ (["title", "description", "priority", "dueDate", "tags"]
      ++ (if hs then ["status"] else [])
      ++ (if ha then ["assignee"] else []))) :
    k ≠ "project" ∧ k ≠ "createdBy" := by
  refine ⟨?_, ?_⟩ <;> rintro rfl <;> revert hk <;> cases hs <;> cases ha <;> decide

theorem saveTask_frame (db : DB) (task t2 : Task)
    (hid : (db.tasks.map Task.id).Nodup) (htask : task ∈ db.tasks)
    (hframe : taskFrame t2 = taskFrame task) :
    (db.saveTask t2).tasks.map taskFrame = db.tasks.map taskFrame := by
  have hid2 : t2.id = task.id := congrArg (fun x => x.1) hframe
  unfold DB.saveTask
  rw [List.map_map]
  apply List.map_congr_left
  intro q hq
  by_cases hqe : (q.id == t2.id) = true
  · have hq_id : q.id = task.id := by rw [beq_iff_eq.mp hqe, hid2]
    have hq_eq : q = task :=
      List.inj_on_of_nodup_map hid hq htask hq_id
    simp [hq_eq, hid2, hframe]
  · simp only [Function.comp_apply, if_neg hqe]

theorem filtered_updates_frame (body : TaskBody) (task : Task) (allowed : List String)
    (hallowed : ∀ k ∈ allowed, k ≠ "project" ∧ k ≠ "createdBy") :
    taskFrame ((body.filter (fun kv => allowed.contains kv.1)).foldl setTaskField task)
      = taskFrame task := by
  apply foldl_setTaskField_frame
  intro kv hkv
  exact hallowed kv.1 (List.elem_iff.mp (List.mem_filter.mp hkv).2)

/-- Claim C8: whatever the request body contains, updateTask leaves the id,
the project reference and the createdBy reference of every stored task
unchanged (assuming task ids are unique, as the store guarantees). -/
theorem c8_updateTask_frame (db : DB) (actor : User) (tid : Nat) (body : TaskBody)
    (hid : (db.tasks.map Task.id).Nodup) :
    (updateTask db actor tid body).2.tasks.map taskFrame = db.tasks.map taskFrame := by
  unfold updateTask
  cases htt : db.findTask tid with
  | none => rfl
  | some task =>
    have htask : task ∈ db.tasks := List.mem_of_find?_eq_some htt
    cases hpp : db.findProject task.project with
    | none => simp [hpp]
    | some project =>
      simp only [hpp]
      split
      · rfl
      · split
        · rfl
        · exact saveTask_frame db task _ hid htask
            (filtered_updates_frame body task _
              (mem_allowedUpdates (getField body "status").isSome
                (getField body "assignee").isSome))

/-- Witness for c8_updateTask_frame: a body naming every field, the
immutable ones included, leaves id, project and createdBy of the stored
tasks unchanged. -/
theorem c8_updateTask_frame_witness :
    (updateTask exDB exOwner 5
      [("title", FieldVal.str "x"), ("project", FieldVal.ref 42),
       ("createdBy", FieldVal.ref 42), ("status", FieldVal.stat TaskStatus.done),
       ("assignee", FieldVal.ref 3)]).2.tasks.map taskFrame
      = exDB.tasks.map taskFrame :=
  c8_updateTask_frame exDB exOwner 5
    [("title", FieldVal.str "x"), ("project", FieldVal.ref 42),
     ("createdBy", FieldVal.ref 42), ("status", FieldVal.stat TaskStatus.done),
     ("assignee", FieldVal.ref 3)] (by decide)

/-- Invariant of the project roster: the owner is not among the member
user references and no user appears twice in the members list. -/
def memberInv (p : Project) : Prop :=
  p.owner ∉ p.members.map Member.user ∧ (p.members.map Member.user).Nodup

instance (p : Project) : Decidable (memberInv p) := by
  unfold memberInv
  infer_instance

theorem mem_saveProject {db : DB} {p2 q : Project}
    (hq : q ∈ (db.saveProject p2).projects) : q = p2 ∨ q ∈ db.projects := by
  unfold DB.saveProject at hq
  rcases List.mem_map.mp hq with ⟨r, hr, he⟩
  by_cases h : (r.id == p2.id) = true
  · rw [if_pos h] at he
    exact Or.inl he.symm
  · rw [if_neg h] at he
    exact Or.inr (he ▸ hr)

theorem setProjectField_keeps (p : Project) (kv : String × ProjVal)
    (h1 : kv.1 ≠ "members") (h2 : kv.1 ≠ "owner") :
    (setProjectField p kv).members = p.members ∧
    (setProjectField p kv).owner = p.owner := by
  obtain ⟨k, v⟩ := kv
  unfold setProjectField
  split <;> simp_all

theorem foldl_setProjectField_keeps (updates : ProjBody) (p : Project)
    (h : ∀ kv ∈ updates, kv.1 ≠ "members" ∧ kv.1 ≠ "owner") :
    (updates.foldl setProjectField p).members = p.members ∧
    (updates.foldl setProjectField p).owner = p.owner := by
  induction updates generalizing p with
  | nil => exact ⟨rfl, rfl⟩
  | cons kv rest ih =>
    have hkv := h kv (List.mem_cons_self _ _)
    have hrest : ∀ x ∈ rest, x.1 ≠ "members" ∧ x.1 ≠ "owner" :=
      fun x hx => h x (List.mem_cons_of_mem _ hx)
    have hstep := setProjectField_keeps p kv hkv.1 hkv.2
    have hrec := ih (setProjectField p kv) hrest
    exact ⟨hrec.1.trans hstep.1, hrec.2.trans hstep.2⟩

/-- Counterexample to claim C5: starting from a store satisfying the
invariant, the owner calling updateProject with a members field in the body
gets 200 and the stored project now lists the owner among its members. -/
theorem c5_counterexample :
    (∀ p ∈ exDB.projects, memberInv p) ∧
    (updateProject exDB exOwner 1
      [("members", ProjVal.mems [{ user := 1, role := ProjectRole.member }])]).1 = 200 ∧
    (∃ q ∈ (updateProject exDB exOwner 1
      [("members", ProjVal.mems [{ user := 1, role := ProjectRole.member }])]).2.projects,
      q.owner ∈ q.members.map Member.user) := by
  decide

/-- Claim C5 (amended): createProject, addMember and removeMember preserve
the roster invariant (owner never among the members, no duplicate member),
and updateProject preserves it whenever the request body carries no members
field; a members field in an updateProject body is written through
unchecked and can break the invariant. -/
theorem c5_member_invariant (db : DB) (actor : User) (cb : CreateProjectBody)
    (newId pid uid mid : Nat) (role : ProjectRole) (body : ProjBody)
    (hInv : ∀ p ∈ db.projects, memberInv p) :
    (∀ q ∈ (createProject db actor cb newId).2.projects, memberInv q) ∧
    (∀ q ∈ (addMember db actor pid uid role).2.projects, memberInv q) ∧
    (∀ q ∈ (removeMember db actor pid mid).2.projects, memberInv q) ∧
    (getProjField body "members" = none →
      ∀ q ∈ (updateProject db actor pid body).2.projects, memberInv q) := by
  refine ⟨?_, ?_, ?_, ?_⟩
  · intro q hq
    unfold createProject at hq
    rcases List.mem_append.mp hq with h | h
    · exact hInv q h
    · rcases List.mem_singleton.mp h with rfl
      exact ⟨by simp, by simp⟩
  · intro q hq
    unfold addMember at hq
    split at hq
    · exact hInv q hq
    · rename_i project heq
      split at hq
      · exact hInv q hq
      · split at hq
        · exact hInv q hq
        · dsimp only at hq
          split at hq
          · exact hInv q hq
          · rename_i hguard
            have hproj : project ∈ db.projects := List.mem_of_find?_eq_some heq
            have hpi := hInv project hproj
            have hq2 : q ∈ (db.saveProject
              { project with members :=
                  project.members ++ [{ user := uid, role := role }] }).projects := hq
            rcases mem_saveProject hq2 with he | hmem
            · rw [he]
              rw [Bool.or_eq_true, not_or] at hguard
              have huid : ∀ m ∈ project.members, m.user ≠ uid := by
                intro m hm
                have := hguard.1
                rw [List.any_eq_true] at this
                push_neg at this
                have h3 := this m hm
                simpa using h3
              have howner : project.owner ≠ uid := by
                have := hguard.2
                simpa using this
              refine ⟨?_, ?_⟩
              · simp only [List.map_append, List.map_cons, List.map_nil,
                  List.mem_append, List.mem_singleton]
                rintro (h | h)
                · exact hpi.1 h
                · exact howner h
              · simp only [List.map_append, List.map_cons, List.map_nil]
                rw [List.nodup_append]
                refine ⟨hpi.2, List.nodup_singleton _, ?_⟩
                intro x hx hx1
                rcases List.mem_singleton.mp hx1 with rfl
                rcases List.mem_map.mp hx with ⟨m, hm, hmu⟩
                exact huid m hm hmu
            · exact hInv q hmem
  · intro q hq
    unfold removeMember at hq
    split at hq
    · exact hInv q hq
    · rename_i project heq
      split at hq
      · exact hInv q hq
      · split at hq
        · exact hInv q hq
        · have hproj : project ∈ db.projects := List.mem_of_find?_eq_some heq
          have hpi := hInv project hproj
          have hq2 : q ∈ (db.saveProject
            { project with members :=
                project.members.filter (fun m => m.user != mid) }).projects := hq
          rcases mem_saveProject hq2 with he | hmem
          · rw [he]
            have hsub : ((project.members.filter (fun m => m.user != mid)).map
                Member.user).Sublist (project.members.map Member.user) :=
              (List.filter_sublist _).map _
            exact ⟨fun h => hpi.1 (hsub.subset h), hpi.2.sublist hsub⟩
          · exact hInv q hmem
  · intro hnone q hq
    unfold updateProject at hq
    split at hq
    · exact hInv q hq
    · rename_i project heq
      split at hq
      · exact hInv q hq
      · have hproj : project ∈ db.projects := List.mem_of_find?_eq_some heq
        have hpi := hInv project hproj
        have hq2 : q ∈ (db.saveProject
          ((body.filter (fun kv => kv.1 != "owner")).foldl
            setProjectField project)).projects := hq
        rcases mem_saveProject hq2 with he | hmem
        · have hfind : body.find? (fun kv => kv.1 == "members") = none :=
            Option.map_eq_none'.mp hnone
          have hkeys : ∀ kv ∈ body.filter (fun kv => kv.1 != "owner"),
              kv.1 ≠ "members" ∧ kv.1 ≠ "owner" := by
            intro kv hkv
            rcases List.mem_filter.mp hkv with ⟨hmemb, hflt⟩
            refine ⟨?_, by simpa using hflt⟩
            have hall := List.find?_eq_none.mp hfind kv hmemb
            simpa using hall
          have hkeep := foldl_setProjectField_keeps _ project hkeys
          rw [he]
          unfold memberInv
          rw [hkeep.1, hkeep.2]
          exact hpi
        · exact hInv q hmem

/-- Witness for c5_member_invariant at the example store: every project
operation without a members body field keeps the roster invariant. -/
theorem c5_member_invariant_witness :
    (∀ q ∈ (createProject exDB exOwner { name := "n", description := "" } 2).2.projects,
      memberInv q) ∧
    (∀ q ∈ (addMember exDB exOwner 1 7 ProjectRole.member).2.projects, memberInv q) ∧
    (∀ q ∈ (removeMember exDB exOwner 1 2).2.projects, memberInv q) ∧
    (getProjField [("name", ProjVal.str "renamed")] "members" = none →
      ∀ q ∈ (updateProject exDB exOwner 1
        [("name", ProjVal.str "renamed")]).2.projects, memberInv q) :=
  c5_member_invariant exDB exOwner { name := "n", description := "" } 2 1 7 2
    ProjectRole.member [("name", ProjVal.str "renamed")] (by decide)

end PMT
